import Mathlib

/-!
Verification of the PR status-check notifier's check-aggregation and
notification-deduplication core.  The definitions below shallowly embed the
JavaScript sources (the status-comment variant in `src/index.js`, the polling
variants, and the notification store) as executable Lean functions; theorems
settle the specification's claims about them.
-/

namespace PRStatusNotifier

/-- ASCII lower-casing of one character, as JavaScript `toLowerCase` acts on
the ASCII range (the only range exercised by check names and patterns here). -/
def jsCharLower (c : Char) : Char :=
  if 65 ≤ c.toNat && c.toNat ≤ 90 then Char.ofNat (c.toNat + 32) else c

/-- JavaScript `s.toLowerCase()`. -/
def jsLower (s : String) : String := ⟨s.data.map jsCharLower⟩

/-- Split a character list on a separator character; JavaScript
`s.split(sep)` semantics: the empty string splits to `['']`. -/
def splitOnCharL (sep : Char) : List Char → List (List Char)
  | [] => [[]]
  | c :: rest =>
    if c == sep then [] :: splitOnCharL sep rest
    else
      match splitOnCharL sep rest with
      | [] => [[c]]
      | g :: gs => (c :: g) :: gs

/-- JavaScript `s.split(',')`. -/
def jsSplitComma (s : String) : List String :=
  (splitOnCharL ',' s.data).map List.asString

def isJsSpace (c : Char) : Bool :=
  c == ' ' || c == '\t' || c == '\n' || c == '\r'

/-- JavaScript `s.trim()` (restricted to the usual whitespace characters). -/
def jsTrim (s : String) : String :=
  ⟨((s.data.dropWhile isJsSpace).reverse.dropWhile isJsSpace).reverse⟩

/-- Does `hay` start with `need`?  Mirrors the positional scan underlying the
JavaScript `String.prototype.includes` substring test. -/
def startsWithL : List Char → List Char → Bool
  | _, [] => true
  | [], _ :: _ => false
  | a :: as, b :: bs => a == b && startsWithL as bs

/-- Substring containment on character lists: JavaScript `hay.includes(need)`. -/
def containsL : List Char → List Char → Bool
  | [], need => need.isEmpty
  | c :: rest, need => startsWithL (c :: rest) need || containsL rest need

/-- JavaScript `hay.includes(need)` on strings. -/
def jsIncludes (hay need : String) : Bool :=
  containsL hay.data need.data

/-- Replace the first occurrence of `pat` in the list by `repl`; JavaScript
`String.prototype.replace` with a string pattern replaces only the first
occurrence. -/
def replaceFirstL (pat repl : List Char) : List Char → List Char
  | [] => if pat.isEmpty then repl else []
  | c :: rest =>
    if startsWithL (c :: rest) pat then repl ++ (c :: rest).drop pat.length
    else c :: replaceFirstL pat repl rest

/-- JavaScript `s.replace(pat, repl)` (first occurrence only). -/
def jsReplace (s pat repl : String) : String :=
  ⟨replaceFirstL pat.data repl.data s.data⟩

/-- The two heterogeneous check records returned by the hosting service:
legacy commit statuses (a `context` and a `state`) and modern check runs
(a `name`, a `status` and a nullable `conclusion`).  The source dispatches on
the presence of a `conclusion` field; here the union is an explicit sum.
Name fields are `Option String` so that missing (`undefined`) names are
representable. -/
inductive RawCheck where
  | statusCheck (context : Option String) (state : String)
  | checkRun (name : Option String) (status : String) (conclusion : Option String)
  deriving DecidableEq, Repr

inductive Classification where
  | pending
  | passed
  | failed
  deriving DecidableEq, Repr

/-- JavaScript `a || b` on possibly-missing strings: the empty string is falsy. -/
def jsOrName (a b : Option String) : Option String :=
  match a with
  | some s => if s.isEmpty then b else some s
  | none => b

/-- `check.name || check.context` — a check run has no `context` field and a
status check has no `name` field. -/
def displayName (c : RawCheck) : Option String :=
  match c with
  | RawCheck.checkRun name _ _ => jsOrName name none
  | RawCheck.statusCheck ctx _ => jsOrName none ctx

def successfulConclusions : List String := ["success", "skipped", "neutral"]

/-- `isCheckRun ? check.status : 'completed'` (src/index.js line 40). -/
def checkStatusField (c : RawCheck) : String :=
  match c with
  | RawCheck.checkRun _ status _ => status
  | RawCheck.statusCheck _ _ => "completed"

/-- `isCheckRun ? check.conclusion : check.state` (src/index.js line 41). -/
def checkConclusionField (c : RawCheck) : Option String :=
  match c with
  | RawCheck.checkRun _ _ conclusion => conclusion
  | RawCheck.statusCheck _ state => some state

/-- Classification used by `getCurrentStatus` in src/index.js (lines 37-52):
`isPassed = status === 'completed' && successfulConclusions.includes(conclusion)`,
`isPending = status !== 'completed' || conclusion === null`, pending first. -/
def classify (c : RawCheck) : Classification :=
  let status := checkStatusField c
  let conclusion := checkConclusionField c
  let isPassed := status == "completed" &&
    (match conclusion with
     | some v => successfulConclusions.contains v
     | none => false)
  let isPending := status != "completed" || conclusion == none
  if isPending then Classification.pending
  else if isPassed then Classification.passed
  else Classification.failed

/-- Classification used by `checkStatus` in the polling variant (part_001
lines 41-63): the extra `in_progress`/`queued` disjuncts are redundant with
`status !== 'completed'` but are kept as written. -/
def classifyPoll (c : RawCheck) : Classification :=
  let status := checkStatusField c
  let conclusion := checkConclusionField c
  let isPending := status == "in_progress" || status == "queued" ||
    status != "completed" || conclusion == none
  let isPassed := !isPending && status == "completed" &&
    (match conclusion with
     | some v => successfulConclusions.contains v
     | none => false)
  if isPending then Classification.pending
  else if isPassed then Classification.passed
  else Classification.failed

/-- The exclusion filter predicate (src/index.js lines 23-28):
`!excludedChecks.some(excluded => checkName?.toLowerCase().includes(excluded.toLowerCase()))`;
a missing name makes the optional chain yield `undefined`, which is falsy. -/
def isRelevant (excludedChecks : List String) (c : RawCheck) : Bool :=
  !(excludedChecks.any (fun excluded =>
    match displayName c with
    | some n => jsIncludes (jsLower n) (jsLower excluded)
    | none => false))

/-- `core.getInput('excluded-checks').split(',').map(s => s.trim())`
(src/index.js line 143): empty entries are trimmed but kept. -/
def parseExcludedChecks (raw : String) : List String :=
  (jsSplitComma raw).map jsTrim

/-- `core.getInput('excluded-checks').split(',').filter(Boolean)`
(part_001 line 7): empty entries are dropped. -/
def parseExcludedPoll (raw : String) : List String :=
  (jsSplitComma raw).filter (fun s => !s.isEmpty)

/-- A normalized check: the pushed display name together with the
classification chosen by the `forEach` body of the source classifiers. -/
structure NormalizedCheck where
  name : Option String
  classification : Classification
  deriving DecidableEq, Repr

/-- One raw check normalized by the `getCurrentStatus` rules. -/
def normalizeA (c : RawCheck) : NormalizedCheck :=
  { name := displayName c, classification := classify c }

/-- Result of `getCurrentStatus` (src/index.js lines 57-67). -/
structure VerdictA where
  allCompleted : Bool
  allPassed : Bool
  pendingChecks : List (Option String)
  failedChecks : List (Option String)
  passedChecks : List (Option String)
  total : Nat
  deriving DecidableEq, Repr

/-- `getCurrentStatus` of src/index.js: filter by exclusion, partition the
relevant checks by classification, then
`allCompleted = pendingChecks.length === 0` and
`allPassed = allCompleted && failedChecks.length === 0 && passedChecks.length > 0`. -/
def getCurrentStatus (excludedChecks : List String) (checks : List RawCheck) : VerdictA :=
  let relevantChecks := checks.filter (isRelevant excludedChecks)
  let pendingChecks :=
    (relevantChecks.filter (fun c => classify c == Classification.pending)).map displayName
  let failedChecks :=
    (relevantChecks.filter (fun c => classify c == Classification.failed)).map displayName
  let passedChecks :=
    (relevantChecks.filter (fun c => classify c == Classification.passed)).map displayName
  { allCompleted := pendingChecks.length == 0
    allPassed := pendingChecks.length == 0 && failedChecks.length == 0 &&
      decide (0 < passedChecks.length)
    pendingChecks := pendingChecks
    failedChecks := failedChecks
    passedChecks := passedChecks
    total := relevantChecks.length }

/-- Result of `checkStatus` in the polling variant (part_001 lines 65-72). -/
structure Verdict where
  hasChecks : Bool
  allCompleted : Bool
  allPassed : Bool
  pending : List (Option String)
  failed : List (Option String)
  passed : List (Option String)
  deriving DecidableEq, Repr

/-- `checkStatus` of part_001: filter, partition by the `classifyPoll` rules,
then `hasChecks = relevantChecks.length > 0`,
`allCompleted = pendingChecks.length === 0` and
`allPassed = pendingChecks.length === 0 && failedChecks.length === 0 && passedChecks.length > 0`. -/
def checkStatusPoll (excludedChecks : List String) (checks : List RawCheck) : Verdict :=
  let relevantChecks := checks.filter (isRelevant excludedChecks)
  let pendingChecks :=
    (relevantChecks.filter (fun c => classifyPoll c == Classification.pending)).map displayName
  let failedChecks :=
    (relevantChecks.filter (fun c => classifyPoll c == Classification.failed)).map displayName
  let passedChecks :=
    (relevantChecks.filter (fun c => classifyPoll c == Classification.passed)).map displayName
  { hasChecks := decide (0 < relevantChecks.length)
    allCompleted := pendingChecks.length == 0
    allPassed := pendingChecks.length == 0 && failedChecks.length == 0 &&
      decide (0 < passedChecks.length)
    pending := pendingChecks
    failed := failedChecks
    passed := passedChecks }

/-- Result of `checkStatus` in the polling variant inside src/index.js
(lines 278-286 of the concatenated file). -/
structure StatusB where
  allCompleted : Bool
  allPassed : Bool
  pendingChecks : List (Option String)
  failedChecks : List (Option String)
  deriving DecidableEq, Repr

/-- `checkStatus` of the src/index.js polling variant:
`allCompleted = !checkResults.some(r => r.isPending)` and
`allPassed = checkResults.length > 0 && checkResults.every(r => r.isPassed)`. -/
def checkStatusB (excludedChecks : List String) (checks : List RawCheck) : StatusB :=
  let relevantChecks := checks.filter (isRelevant excludedChecks)
  { allCompleted := !(relevantChecks.any (fun c => classify c == Classification.pending))
    allPassed := decide (0 < relevantChecks.length) &&
      relevantChecks.all (fun c => classify c == Classification.passed)
    pendingChecks :=
      (relevantChecks.filter (fun c => classify c == Classification.pending)).map displayName
    failedChecks :=
      (relevantChecks.filter (fun c => classify c == Classification.failed)).map displayName }

def STATUS_COMMENT_MARKER : String := "<!-- PR-STATUS-CHECK -->"

/-- A comment on the PR, as returned by the comment-listing endpoint:
a server-assigned id and a body. -/
structure Comment where
  id : Nat
  body : String
  deriving DecidableEq, Repr

/-- The PR fields used by the notification flow. -/
structure PRInfo where
  number : Nat
  userLogin : String
  deriving DecidableEq, Repr

/-- JavaScript template-literal rendering of a possibly-undefined name. -/
def jsShow (o : Option String) : String :=
  match o with
  | some s => s
  | none => "undefined"

/-- One `- ${c} emoji` bullet line of the status comment. -/
def checkLine (c : Option String) (emoji : String) : String :=
  "- " ++ jsShow c ++ " " ++ emoji

/-- One optional section of the status message: appended only when the name
list is non-empty (src/index.js lines 74-84). -/
def sectionBlock (title emoji : String) (names : List (Option String)) (msg : String) : String :=
  if decide (0 < names.length) then
    msg ++ title ++ String.intercalate "\n" (names.map (fun c => checkLine c emoji)) ++ "\n\n"
  else msg

/-- The status-comment body built by `updateStatusComment`
(src/index.js lines 71-86); the timestamp is the externally supplied
`new Date().toISOString()` value. -/
def buildStatusMessage (status : VerdictA) (timestamp : String) : String :=
  let statusEmoji :=
    if status.allPassed then "✅"
    else if decide (0 < status.failedChecks.length) then "❌"
    else "⏳"
  sectionBlock "**Failed Checks:**\n" "❌" status.failedChecks
    (sectionBlock "**Pending Checks:**\n" "⏳" status.pendingChecks
      (sectionBlock "**Passed Checks:**\n" "✅" status.passedChecks
        (STATUS_COMMENT_MARKER ++ "\n### PR Status Check " ++ statusEmoji ++ "\n\n"))) ++
    "Last updated: " ++ timestamp

/-- `updateStatusComment` (src/index.js lines 70-113): find the first comment
whose body includes the marker; update it in place if found, otherwise create
a new comment (the server assigns `newId`).  Returns the resulting comment
list and `status.allPassed`. -/
def updateStatusComment (comments : List Comment) (status : VerdictA)
    (timestamp : String) (newId : Nat) : List Comment × Bool :=
  let statusMessage := buildStatusMessage status timestamp
  match comments.find? (fun c => jsIncludes c.body STATUS_COMMENT_MARKER) with
  | some existing =>
    (comments.map (fun c =>
        if c.id == existing.id then { id := c.id, body := statusMessage } else c),
     status.allPassed)
  | none =>
    (comments ++ [{ id := newId, body := statusMessage }], status.allPassed)

/-- `notifySuccess` (src/index.js lines 115-135): list the comments, and post
`notificationTemplate.replace('{user}', pr.user.login)` unless some comment
already contains the fixed text and is not the status comment. -/
def notifySuccess (comments : List String) (pr : PRInfo)
    (notificationTemplate : String) : List String :=
  let hasNotification := comments.any (fun body =>
    jsIncludes body "All checks have passed!" && !(jsIncludes body STATUS_COMMENT_MARKER))
  if hasNotification then comments
  else comments ++ [jsReplace notificationTemplate "{user}" pr.userLogin]

/-- The execution context fields relevant to the notification body: the
workflow actor who triggered the run, and the author of the pull request. -/
structure RunActors where
  actor : String
  prAuthor : String
  deriving DecidableEq, Repr

/-- The notification body built by the part_001 polling variant (line 126):
`core.getInput('notification-message').replace('{user}', context.actor)` —
the workflow actor, not the PR author. -/
def part001Message (ctx : RunActors) (notificationTemplate : String) : String :=
  jsReplace notificationTemplate "{user}" ctx.actor

/-- The notification body built by `notifySuccess` (src/index.js line 127)
and the src/index.js polling variant (line 392): the template with the PR
author's login substituted. -/
def authorMessage (ctx : RunActors) (notificationTemplate : String) : String :=
  jsReplace notificationTemplate "{user}" ctx.prAuthor

/-- `pr-${prNumber}-${message}` — the key of src/notificationStore.js. -/
def storeKey (prNumber : Nat) (message : String) : String :=
  "pr-" ++ toString prNumber ++ "-" ++ message

/-- The in-memory session store of src/notificationStore.js, a set of keys;
modelled as a list with membership semantics. -/
def hasNotificationKey (store : List String) (prNumber : Nat) (message : String) : Bool :=
  store.contains (storeKey prNumber message)

/-- `addNotification` of src/notificationStore.js (`Set.add` is idempotent). -/
def addNotification (store : List String) (prNumber : Nat) (message : String) : List String :=
  if store.contains (storeKey prNumber message) then store
  else store ++ [storeKey prNumber message]

/-- Modelled from the spec: `hasExistingComment` is exercised by the test
suite but its implementation is not among the provided sources; §4.5 of the
spec defines the durable layer as listing the PR's comments and checking
whether any body equals the candidate message after case-folding and
trimming. -/
def hasExistingComment (comments : List String) (message : String) : Bool :=
  comments.any (fun body => jsTrim (jsLower body) == jsTrim (jsLower message))

/-- The PR mergeability snapshot consumed by the gate. -/
structure PRData where
  mergeable : Bool
  mergeableState : String
  deriving DecidableEq, Repr

/-- One review: the reviewer's identity and the review state, listed in
submission order. -/
structure Review where
  reviewerId : Nat
  state : String
  deriving DecidableEq, Repr

/-- The latest review state of one reviewer: the last entry of the
submission-ordered list that belongs to that reviewer. -/
def latestReviewFor (reviews : List Review) (reviewerId : Nat) : Option String :=
  (reviews.filterMap (fun r =>
    if r.reviewerId == reviewerId then some r.state else none)).getLast?

/-- Does some reviewer's latest review approve?  A later review by the same
reviewer overrides an earlier one. -/
def hasApprovedLatest (reviews : List Review) : Bool :=
  reviews.any (fun r => latestReviewFor reviews r.reviewerId == some "APPROVED")

/-- Modelled from the spec: `isPRMergeable` is exercised by the test suite but
its implementation is not among the provided sources; §4.4 of the spec defines
the gate as allowing only when `mergeable` is true, `mergeableState` is
`"clean"`, and some reviewer's latest review is an approval, and as denying
(fail closed) when either fetch fails. -/
def isPRMergeable (prRes : Except String PRData)
    (revRes : Except String (List Review)) : Bool :=
  match prRes, revRes with
  | Except.ok pr, Except.ok reviews =>
    pr.mergeable && pr.mergeableState == "clean" && hasApprovedLatest reviews
  | _, _ => false

/-- The notification decision after an all-passed verdict: the gate must also
allow (spec §2 data flow: Aggregator → Gate Evaluator → Deduplicator). -/
def shouldNotify (allPassed : Bool) (prRes : Except String PRData)
    (revRes : Except String (List Review)) : Bool :=
  allPassed && isPRMergeable prRes revRes

/-- Modelled from the spec: `createComment` is exercised by the test suite but
its implementation is not among the provided sources; per §4.5 and the tests
it checks the gate, then the session layer (src/notificationStore.js keys),
then the durable layer, and only then posts, recording the key in the session
store whenever the message is known delivered.  Returns the comment list and
the session store after the call. -/
def createComment (gateAllows : Bool) (store : List String)
    (comments : List String) (prNumber : Nat) (message : String) :
    List String × List String :=
  if !gateAllows then (comments, store)
  else if hasNotificationKey store prNumber message then (comments, store)
  else if hasExistingComment comments message then
    (comments, addNotification store prNumber message)
  else
    (comments ++ [message], addNotification store prNumber message)

/-- Terminal and non-terminal outcomes of a poll run.  `outOfTrace` means the
supplied finite trace of iterations ended with the driver still polling. -/
inductive PollResult where
  | timedOut (msg : String)
  | notified
  | failedRun (msg : String)
  | outOfTrace
  deriving DecidableEq, Repr

/-- The poll loop of part_001 (lines 105-150), driven by a finite trace of
iterations; each entry carries the elapsed wall-clock milliseconds observed at
the top of the iteration and the outcome of that iteration's `checkStatus`
fetch (`Except.error` for a thrown fetch error, caught by the per-iteration
`try`/`catch`).  `polls` counts the fetches attempted. -/
def runPollFrom (timeoutMs timeoutMinutes : Nat) (hasNotified : Bool) (polls : Nat) :
    List (Nat × Except String Verdict) → PollResult × Nat
  | [] => (PollResult.outOfTrace, polls)
  | (elapsedMs, fetch) :: rest =>
    if timeoutMs < elapsedMs then
      (PollResult.timedOut ("Timed out after " ++ toString timeoutMinutes ++ " minutes"), polls)
    else
      match fetch with
      | Except.error _ => runPollFrom timeoutMs timeoutMinutes hasNotified (polls + 1) rest
      | Except.ok status =>
        if !status.hasChecks then
          runPollFrom timeoutMs timeoutMinutes hasNotified (polls + 1) rest
        else if status.allCompleted then
          if status.allPassed && !hasNotified then (PollResult.notified, polls + 1)
          else if decide (0 < status.failed.length) then
            (PollResult.failedRun "Some checks failed", polls + 1)
          else runPollFrom timeoutMs timeoutMinutes hasNotified (polls + 1) rest
        else runPollFrom timeoutMs timeoutMinutes hasNotified (polls + 1) rest

/-- The poll loop of the src/index.js polling variant (lines 366-417 of the
concatenated file).  Its `try`/`catch` wraps the whole `run`, so a thrown
fetch error escapes the loop and reaches `core.setFailed(error.message)`. -/
def runPollB (timeoutMs maxWaitMinutes : Nat) :
    List (Nat × Except String StatusB) → PollResult
  | [] => PollResult.outOfTrace
  | (elapsedMs, fetch) :: rest =>
    if timeoutMs < elapsedMs then
      PollResult.timedOut ("Timed out after " ++ toString maxWaitMinutes ++ " minutes")
    else
      match fetch with
      | Except.error e => PollResult.failedRun e
      | Except.ok status =>
        if status.allCompleted then
          if status.allPassed then PollResult.notified
          else PollResult.failedRun "Some checks failed"
        else runPollB timeoutMs maxWaitMinutes rest

theorem isRelevant_iff (excluded : List String) (c : RawCheck) (n : String)
    (h : displayName c = some n) :
    isRelevant excluded c = true ↔
      ∀ e ∈ excluded, jsIncludes (jsLower n) (jsLower e) = false := by
  simp [isRelevant, h, List.any_eq_false]

/-- Claim C1: the classifiers map a status context by its state alone —
success/skipped/neutral to Passed and failure/error to Failed — but a status
context with state `pending` is classified Failed, not Pending: the synthetic
`status = 'completed'` makes `isPending` false while `'pending'` is not a
successful conclusion.  This evaluates both classifiers at the failing
input. -/
theorem c1_pending_status_classified_failed :
    classify (RawCheck.statusCheck (some "ci") "pending") = Classification.failed ∧
    classifyPoll (RawCheck.statusCheck (some "ci") "pending") = Classification.failed ∧
    classify (RawCheck.statusCheck (some "ci") "success") = Classification.passed ∧
    classify (RawCheck.statusCheck (some "ci") "skipped") = Classification.passed ∧
    classify (RawCheck.statusCheck (some "ci") "neutral") = Classification.passed ∧
    classify (RawCheck.statusCheck (some "ci") "failure") = Classification.failed ∧
    classify (RawCheck.statusCheck (some "ci") "error") = Classification.failed := by
  decide

/-- Claim C3: for every list of checks, the part_001 aggregate verdict has
`allCompleted` true iff the pending list is empty, `allPassed` true iff the
run is complete with no failed names and at least one passed name, and an
empty relevant-check list yields `hasChecks = false` and `allPassed = false`. -/
theorem c3_aggregate_verdict (excluded : List String) (checks : List RawCheck) :
    ((checkStatusPoll excluded checks).allCompleted = true ↔
      (checkStatusPoll excluded checks).pending = []) ∧
    ((checkStatusPoll excluded checks).allPassed = true ↔
      ((checkStatusPoll excluded checks).allCompleted = true ∧
        (checkStatusPoll excluded checks).failed = [] ∧
        (checkStatusPoll excluded checks).passed ≠ [])) ∧
    (checks.filter (isRelevant excluded) = [] →
      (checkStatusPoll excluded checks).hasChecks = false ∧
      (checkStatusPoll excluded checks).allPassed = false) := by
  refine ⟨?_, ?_, ?_⟩
  · simp [checkStatusPoll, List.length_eq_zero]
  · simp [checkStatusPoll, List.length_eq_zero, List.length_pos, and_assoc]
  · intro h
    simp [checkStatusPoll, h]

/-- Witness for C3 at a concrete input: no checks at all gives no false
positive. -/
theorem c3_witness :
    (checkStatusPoll ["lint"] []).hasChecks = false ∧
    (checkStatusPoll ["lint"] []).allPassed = false :=
  (c3_aggregate_verdict ["lint"] []).2.2 (by decide)

/-- Claim C4 counterexample: a check-run with a missing name and conclusion
`success` is normalized with no name at all — not with the synthetic name
`"<unnamed>"` — and is classified Passed, not error-classified. -/
theorem c4_counterexample :
    (normalizeA (RawCheck.checkRun none "completed" (some "success"))).name = none ∧
    (normalizeA (RawCheck.checkRun none "completed" (some "success"))).name ≠
      some "<unnamed>" ∧
    (normalizeA (RawCheck.checkRun none "completed" (some "success"))).classification =
      Classification.passed := by
  decide

/-- Claim C4 (amended): classification is a pure total function into the
three outcomes Pending, Passed and Failed, and a check with a missing display name
matches no exclusion pattern (the optional chain is falsy) and is classified
by the ordinary rules with its name left absent rather than replaced by a
synthetic `"<unnamed>"`. -/
theorem c4_classify_total (c : RawCheck) (excluded : List String) :
    (classify c = Classification.pending ∨ classify c = Classification.passed ∨
      classify c = Classification.failed) ∧
    (displayName c = none →
      isRelevant excluded c = true ∧ (normalizeA c).name = none) := by
  constructor
  · cases h : classify c
    · exact Or.inl rfl
    · exact Or.inr (Or.inl rfl)
    · exact Or.inr (Or.inr rfl)
  · intro h
    constructor
    · simp [isRelevant, h]
    · simp [normalizeA, h]

/-- Witness for C4 at a concrete input: the nameless check-run is kept by a
non-trivial exclusion list. -/
theorem c4_witness :
    isRelevant ["lint"] (RawCheck.checkRun none "completed" (some "success")) = true ∧
    (normalizeA (RawCheck.checkRun none "completed" (some "success"))).name = none :=
  (c4_classify_total (RawCheck.checkRun none "completed" (some "success")) ["lint"]).2
    (by decide)

/-- Claim C5 counterexample: with the src/index.js input parsing
(`split(',').map(s => s.trim())`), an empty excluded-checks configuration
yields the single pattern `""`, which is a substring of every name, so it
excludes every named check — it does not exclude no checks. -/
theorem c5_counterexample :
    parseExcludedChecks "" = [""] ∧
    isRelevant (parseExcludedChecks "")
      (RawCheck.checkRun (some "build") "completed" (some "success")) = false := by
  decide

/-- Claim C5 (amended): a named raw check is kept as relevant iff its display
name contains no configured pattern as a case-insensitive substring (so
`"lint"` excludes both `"Lint"` and `"backend-linting"`); the polling-variant
parser (`split(',').filter(Boolean)`) drops empty entries, so there an empty
excluded-checks configuration excludes no checks, whereas the src/index.js
parser keeps the trimmed empty entry and excludes every named check. -/
theorem c5_exclusion_filter :
    (∀ (excluded : List String) (c : RawCheck) (n : String), displayName c = some n →
      (isRelevant excluded c = true ↔
        ∀ e ∈ excluded, jsIncludes (jsLower n) (jsLower e) = false)) ∧
    isRelevant ["lint"] (RawCheck.checkRun (some "Lint") "completed" (some "success")) = false ∧
    isRelevant ["lint"] (RawCheck.statusCheck (some "backend-linting") "pending") = false ∧
    parseExcludedPoll "" = [] ∧
    (∀ c : RawCheck, isRelevant (parseExcludedPoll "") c = true) := by
  refine ⟨isRelevant_iff, by decide, by decide, by decide, ?_⟩
  intro c
  have h : parseExcludedPoll "" = [] := by decide
  rw [h]
  simp [isRelevant]

/-- Claim C7 counterexample: in the polling variant inside src/index.js the
`try`/`catch` wraps the whole run rather than one iteration, so a transient
fetch error in the very first iteration terminates the run as a failure
(`core.setFailed(error.message)`) instead of staying in Polling. -/
theorem c7_counterexample :
    runPollB 1800000 30 [(0, Except.error "ECONNRESET")] =
      PollResult.failedRun "ECONNRESET" := by
  decide

/-- Claim C7 (amended): in the part_001 polling driver, whose `try`/`catch`
sits inside the loop, an iteration whose fetch throws is a no-op — the run
continues with the remaining iterations (stays in Polling), only the poll
counter advancing — so a transient fetch error never by itself produces a
Failed termination there; the src/index.js polling variant instead lets the
error escape the loop and fails. -/
theorem c7_poll_error_is_noop (timeoutMs timeoutMinutes : Nat) (hasNotified : Bool)
    (polls elapsedMs : Nat) (e : String) (rest : List (Nat × Except String Verdict))
    (h : elapsedMs ≤ timeoutMs) :
    runPollFrom timeoutMs timeoutMinutes hasNotified polls
        ((elapsedMs, Except.error e) :: rest) =
      runPollFrom timeoutMs timeoutMinutes hasNotified (polls + 1) rest := by
  have h2 : ¬ timeoutMs < elapsedMs := Nat.not_lt.mpr h
  simp [runPollFrom, h2]

/-- Witness for C7 at a concrete input: a rate-limit error consumes the
iteration and the driver is simply polling again. -/
theorem c7_witness :
    runPollFrom 60000 1 false 0 [(0, Except.error "rate limited")] =
      runPollFrom 60000 1 false 1 [] :=
  c7_poll_error_is_noop 60000 1 false 0 0 "rate limited" [] (by decide)

theorem runPollFrom_timeout_of_never_complete (timeoutMs timeoutMinutes : Nat)
    (hasNotified : Bool) :
    ∀ (trace : List (Nat × Except String Verdict)) (polls : Nat),
      (∀ p ∈ trace, ∀ v, p.2 = Except.ok v → v.allCompleted = false) →
      (∃ p ∈ trace, timeoutMs < p.1) →
      ∃ n, runPollFrom timeoutMs timeoutMinutes hasNotified polls trace =
          (PollResult.timedOut ("Timed out after " ++ toString timeoutMinutes ++ " minutes"),
            n) ∧
        polls ≤ n := by
  intro trace
  induction trace with
  | nil => intro polls _ hex; simp at hex
  | cons hd rest ih =>
    intro polls hok hex
    obtain ⟨t, f⟩ := hd
    by_cases ht : timeoutMs < t
    · exact ⟨polls, by simp [runPollFrom, ht], le_refl polls⟩
    · have hex' : ∃ p ∈ rest, timeoutMs < p.1 := by
        rcases hex with ⟨p, hp, hlt⟩
        rcases List.mem_cons.mp hp with h1 | h2
        · subst h1; exact absurd hlt ht
        · exact ⟨p, h2, hlt⟩
      have hok' : ∀ p ∈ rest, ∀ v, p.2 = Except.ok v → v.allCompleted = false :=
        fun p hp => hok p (List.mem_cons_of_mem _ hp)
      obtain ⟨n, hn, hle⟩ := ih (polls + 1) hok' hex'
      have hle' : polls ≤ n := le_trans (Nat.le_succ polls) hle
      cases f with
      | error e => exact ⟨n, by simp [runPollFrom, ht, hn], hle'⟩
      | ok v =>
        have hv : v.allCompleted = false :=
          hok (t, Except.ok v) (List.mem_cons_self _ _) v rfl
        by_cases hc : v.hasChecks = true
        · exact ⟨n, by simp [runPollFrom, ht, hv, hc, hn], hle'⟩
        · exact ⟨n, by simp [runPollFrom, ht, hv, hc, hn], hle'⟩

/-- Claim C8: with a positive timeout budget of `timeoutMinutes` and checks
that never complete, the part_001 poll driver — which compares the elapsed
time against the budget at the top of each iteration — terminates with the
failure message naming the budget once some iteration starts past the budget,
and has performed at least one poll before timing out (the first iteration,
at elapsed time 0, always polls). -/
theorem c8_timeout (timeoutMinutes : Nat) (f0 : Except String Verdict)
    (rest : List (Nat × Except String Verdict))
    (_hT : 0 < timeoutMinutes)
    (hok : ∀ p ∈ (0, f0) :: rest, ∀ v, p.2 = Except.ok v → v.allCompleted = false)
    (hex : ∃ p ∈ (0, f0) :: rest, timeoutMinutes * 60000 < p.1) :
    ∃ n, runPollFrom (timeoutMinutes * 60000) timeoutMinutes false 0 ((0, f0) :: rest) =
        (PollResult.timedOut ("Timed out after " ++ toString timeoutMinutes ++ " minutes"),
          n) ∧
      1 ≤ n := by
  have ht : ¬ (timeoutMinutes * 60000 < 0) := Nat.not_lt_zero _
  have hex' : ∃ p ∈ rest, timeoutMinutes * 60000 < p.1 := by
    rcases hex with ⟨p, hp, hlt⟩
    rcases List.mem_cons.mp hp with h1 | h2
    · subst h1; exact absurd hlt ht
    · exact ⟨p, h2, hlt⟩
  have hok' : ∀ p ∈ rest, ∀ v, p.2 = Except.ok v → v.allCompleted = false :=
    fun p hp => hok p (List.mem_cons_of_mem _ hp)
  obtain ⟨n, hn, hle⟩ :=
    runPollFrom_timeout_of_never_complete (timeoutMinutes * 60000) timeoutMinutes false
      rest 1 hok' hex'
  cases f0 with
  | error e => exact ⟨n, by simp [runPollFrom, ht, hn], hle⟩
  | ok v =>
    have hv : v.allCompleted = false :=
      hok (0, Except.ok v) (List.mem_cons_self _ _) v rfl
    by_cases hc : v.hasChecks = true
    · exact ⟨n, by simp [runPollFrom, ht, hv, hc, hn], hle⟩
    · exact ⟨n, by simp [runPollFrom, ht, hv, hc, hn], hle⟩

/-- A concrete never-completing verdict: one check run still in progress. -/
def pendingVerdictW : Verdict :=
  checkStatusPoll [] [RawCheck.checkRun (some "build") "in_progress" none]

/-- Witness for C8 at a concrete input: timeout budget 1 minute, polls at 0s
and 70s, checks never complete. -/
theorem c8_witness :
    ∃ n, runPollFrom (1 * 60000) 1 false 0
        [(0, Except.ok pendingVerdictW), (70000, Except.ok pendingVerdictW)] =
        (PollResult.timedOut ("Timed out after " ++ toString 1 ++ " minutes"), n) ∧
      1 ≤ n := by
  refine c8_timeout 1 (Except.ok pendingVerdictW) [(70000, Except.ok pendingVerdictW)]
    (by decide) ?_ ⟨(70000, Except.ok pendingVerdictW), by simp, by decide⟩
  intro p hp v hv
  rcases List.mem_cons.mp hp with h1 | h2
  · subst h1
    injection hv with h
    subst h
    decide
  · rcases List.mem_cons.mp h2 with h3 | h4
    · subst h3
      injection hv with h
      subst h
      decide
    · simp at h4

/-- Claim C9 counterexample: with author `author-alice` and triggering actor
`reviewer-bob`, the part_001 polling variant posts the template with the
workflow actor substituted for the user placeholder, which differs from the body the
claim requires (the PR author's login). -/
theorem c9_counterexample :
    part001Message ⟨"reviewer-bob", "author-alice"⟩ "@{user} All checks have passed!" =
      "@reviewer-bob All checks have passed!" ∧
    authorMessage ⟨"reviewer-bob", "author-alice"⟩ "@{user} All checks have passed!" =
      "@author-alice All checks have passed!" ∧
    ("@reviewer-bob All checks have passed!" : String) ≠
      "@author-alice All checks have passed!" := by
  decide

/-- Claim C9 (amended): whenever `notifySuccess` (src/index.js) posts a
comment, its body is the notification template with the user placeholder replaced by
the PR author's login (`pr.user.login`); the part_001 polling variant instead
substitutes the workflow actor (`context.actor`), which need not be the
author. -/
theorem c9_notify_body_uses_author (comments : List String) (pr : PRInfo)
    (notificationTemplate : String)
    (h : notifySuccess comments pr notificationTemplate ≠ comments) :
    notifySuccess comments pr notificationTemplate =
      comments ++ [jsReplace notificationTemplate "{user}" pr.userLogin] := by
  by_cases hn : (comments.any fun body =>
      jsIncludes body "All checks have passed!" &&
        !(jsIncludes body STATUS_COMMENT_MARKER)) = true
  · exact absurd (by simp [notifySuccess, hn]) h
  · simp only [Bool.not_eq_true] at hn
    simp [notifySuccess, hn]

/-- Witness for C9 at a concrete input. -/
theorem c9_witness :
    notifySuccess [] ⟨7, "author-alice"⟩ "@{user} All checks have passed!" =
      [] ++ [jsReplace "@{user} All checks have passed!" "{user}" "author-alice"] :=
  c9_notify_body_uses_author [] ⟨7, "author-alice"⟩ "@{user} All checks have passed!"
    (by decide)

theorem hasExistingComment_append_self (comments : List String) (message : String) :
    hasExistingComment (comments ++ [message]) message = true := by
  simp [hasExistingComment]

/-- Claim C2: the evaluate-and-notify flow is idempotent.  When no existing
comment matches the candidate message (after case-folding and trimming) and
the session store has no key for it, the first `createComment` posts exactly
the one message; a second run over the resulting comment list — with any
session store whatsoever, in particular a freshly reset one — posts nothing,
because the durable layer finds the first comment; and whenever some existing
comment already matches, nothing is posted. -/
theorem c2_idempotent_notification (comments : List String) (prNumber : Nat)
    (message : String) (store0 store1 : List String)
    (hdur : hasExistingComment comments message = false)
    (hses : hasNotificationKey store0 prNumber message = false) :
    (createComment true store0 comments prNumber message).1 = comments ++ [message] ∧
    (createComment true store1 (comments ++ [message]) prNumber message).1 =
      comments ++ [message] ∧
    (∀ (comments' store' : List String),
      hasExistingComment comments' message = true →
      (createComment true store' comments' prNumber message).1 = comments') := by
  refine ⟨by simp [createComment, hses, hdur], ?_, ?_⟩
  · by_cases hk : hasNotificationKey store1 prNumber message = true
    · simp [createComment, hk]
    · simp only [Bool.not_eq_true] at hk
      simp [createComment, hk, hasExistingComment_append_self]
  · intro comments' store' hdup
    by_cases hk : hasNotificationKey store' prNumber message = true
    · simp [createComment, hk]
    · simp only [Bool.not_eq_true] at hk
      simp [createComment, hk, hdup]

/-- Witness for C2 at a concrete input: two sequential runs starting from an
empty comment history create exactly one comment, with the second run using a
reset (empty) session store. -/
theorem c2_witness :
    (createComment true [] [] 5 "@alice ready").1 = [] ++ ["@alice ready"] ∧
    (createComment true [] ([] ++ ["@alice ready"]) 5 "@alice ready").1 =
      [] ++ ["@alice ready"] := by
  have h := c2_idempotent_notification [] 5 "@alice ready" [] [] (by decide) (by decide)
  exact ⟨h.1, h.2.1⟩

/-- Claim C6: the gate denies — so notification is suppressed even when all
checks passed — whenever the PR is not mergeable, or its mergeable state is
not `clean`, or no reviewer's latest review is an approval; and when either
fetch fails the gate denies (fail closed) as an ordinary return value, so
nothing escapes its boundary.  A later review by the same reviewer overrides
an earlier approval. -/
theorem c6_gate_denies (allPassed : Bool) :
    (∀ (pr : PRData) (revRes : Except String (List Review)), pr.mergeable = false →
      shouldNotify allPassed (Except.ok pr) revRes = false) ∧
    (∀ (pr : PRData) (revRes : Except String (List Review)), pr.mergeableState ≠ "clean" →
      shouldNotify allPassed (Except.ok pr) revRes = false) ∧
    (∀ (pr : PRData) (reviews : List Review), hasApprovedLatest reviews = false →
      shouldNotify allPassed (Except.ok pr) (Except.ok reviews) = false) ∧
    (∀ (e : String) (revRes : Except String (List Review)),
      shouldNotify allPassed (Except.error e) revRes = false) ∧
    (∀ (prRes : Except String PRData) (e : String),
      shouldNotify allPassed prRes (Except.error e) = false) ∧
    hasApprovedLatest [⟨123, "APPROVED"⟩, ⟨123, "CHANGES_REQUESTED"⟩] = false ∧
    hasApprovedLatest [⟨123, "APPROVED"⟩] = true := by
  refine ⟨?_, ?_, ?_, ?_, ?_, by decide, by decide⟩
  · intro pr revRes h
    cases revRes <;> simp [shouldNotify, isPRMergeable, h]
  · intro pr revRes h
    have h2 : (pr.mergeableState == "clean") = false := beq_eq_false_iff_ne.mpr h
    cases revRes <;> simp [shouldNotify, isPRMergeable, h2]
  · intro pr reviews h
    simp [shouldNotify, isPRMergeable, h]
  · intro e revRes
    cases revRes <;> simp [shouldNotify, isPRMergeable]
  · intro prRes e
    cases prRes <;> simp [shouldNotify, isPRMergeable]

/-- Witness for C6 at concrete inputs: a blocked PR and a failed fetch are
both denied even though every check passed. -/
theorem c6_witness :
    shouldNotify true (Except.ok ⟨true, "blocked"⟩) (Except.ok [⟨123, "APPROVED"⟩]) = false ∧
    shouldNotify true (Except.error "API Error") (Except.ok []) = false := by
  have h := c6_gate_denies true
  exact ⟨h.2.1 ⟨true, "blocked"⟩ (Except.ok [⟨123, "APPROVED"⟩]) (by decide),
    h.2.2.2.1 "API Error" (Except.ok [])⟩

theorem startsWithL_append_self : ∀ (a b : List Char), startsWithL (a ++ b) a = true := by
  intro a
  induction a with
  | nil => intro b; cases b <;> rfl
  | cons c as ih => intro b; simp [startsWithL, ih]

theorem startsWithL_append_right :
    ∀ (n h e : List Char), startsWithL h n = true → startsWithL (h ++ e) n = true := by
  intro n
  induction n with
  | nil => intro h e _; cases h ++ e <;> rfl
  | cons b bs ih =>
    intro h e hs
    cases h with
    | nil => simp [startsWithL] at hs
    | cons a as =>
      simp [startsWithL] at hs ⊢
      exact ⟨hs.1, ih as e hs.2⟩

theorem containsL_of_startsWithL (hay need : List Char)
    (h : startsWithL hay need = true) : containsL hay need = true := by
  cases hay with
  | nil =>
    cases need with
    | nil => rfl
    | cons c cs => simp [startsWithL] at h
  | cons c rest => simp [containsL, h]

theorem containsL_append_right :
    ∀ (h n e : List Char), containsL h n = true → containsL (h ++ e) n = true := by
  intro h
  induction h with
  | nil =>
    intro n e hc
    cases n with
    | nil => exact containsL_of_startsWithL _ _ (by cases e <;> rfl)
    | cons b bs => simp [containsL, List.isEmpty] at hc
  | cons c rest ih =>
    intro n e hc
    simp only [containsL, Bool.or_eq_true] at hc
    rcases hc with h1 | h2
    · exact containsL_of_startsWithL _ _ (startsWithL_append_right n (c :: rest) e h1)
    · simp only [List.cons_append, containsL, Bool.or_eq_true]
      exact Or.inr (ih n e h2)

theorem jsIncludes_append_left (p y : String) : jsIncludes (p ++ y) p = true :=
  containsL_of_startsWithL _ _ (startsWithL_append_self p.data y.data)

theorem jsIncludes_append_right (x y p : String) (h : jsIncludes x p = true) :
    jsIncludes (x ++ y) p = true :=
  containsL_append_right x.data p.data y.data h

theorem marker_in_sectionBlock (t e : String) (ns : List (Option String)) (msg : String)
    (h : jsIncludes msg STATUS_COMMENT_MARKER = true) :
    jsIncludes (sectionBlock t e ns msg) STATUS_COMMENT_MARKER = true := by
  unfold sectionBlock
  split
  · exact jsIncludes_append_right _ _ _
      (jsIncludes_append_right _ _ _ (jsIncludes_append_right _ _ _ h))
  · exact h

/-- The status-comment body always carries the idempotence marker. -/
theorem marker_in_statusMessage (status : VerdictA) (ts : String) :
    jsIncludes (buildStatusMessage status ts) STATUS_COMMENT_MARKER = true := by
  unfold buildStatusMessage
  apply jsIncludes_append_right
  apply jsIncludes_append_right
  apply marker_in_sectionBlock
  apply marker_in_sectionBlock
  apply marker_in_sectionBlock
  exact jsIncludes_append_right _ _ _
    (jsIncludes_append_right _ _ _ (jsIncludes_append_left _ _))

/-- The number of marker-bearing status comments in a comment list. -/
def markerCount (comments : List Comment) : Nat :=
  comments.countP (fun c => jsIncludes c.body STATUS_COMMENT_MARKER)

theorem two_le_countP {α : Type} (p : α → Bool) (l : List α) (a b : α)
    (ha : a ∈ l) (hb : b ∈ l) (hab : a ≠ b) (hpa : p a = true) (hpb : p b = true) :
    2 ≤ l.countP p := by
  obtain ⟨s, t, rfl⟩ := List.append_of_mem ha
  rw [List.countP_append, List.countP_cons_of_pos p t hpa]
  rcases List.mem_append.mp hb with hs | hat
  · have : 0 < s.countP p := List.countP_pos_iff.mpr ⟨b, hs, hpb⟩
    omega
  · rcases List.mem_cons.mp hat with h1 | h2
    · exact absurd h1.symm hab
    · have : 0 < t.countP p := List.countP_pos_iff.mpr ⟨b, h2, hpb⟩
      omega

theorem countP_id_eq_one :
    ∀ (l : List Comment) (eid : Nat), (l.map Comment.id).Nodup →
      (∃ c ∈ l, c.id = eid) → l.countP (fun c => c.id == eid) = 1 := by
  intro l
  induction l with
  | nil => intro eid _ hex; simp at hex
  | cons a t ih =>
    intro eid hnd hex
    rw [List.map_cons, List.nodup_cons] at hnd
    by_cases ha : a.id = eid
    · rw [List.countP_cons_of_pos _ _ (by simp [ha])]
      have ht0 : t.countP (fun c => c.id == eid) = 0 := by
        apply List.countP_eq_zero.mpr
        intro c hc hcp
        simp only [beq_iff_eq] at hcp
        have hac : a.id = c.id := by rw [ha, hcp]
        exact hnd.1 (by rw [hac]; exact List.mem_map_of_mem Comment.id hc)
      rw [ht0]
    · rw [List.countP_cons_of_neg _ _ (by simp [ha])]
      apply ih eid hnd.2
      rcases hex with ⟨c, hc, hceq⟩
      rcases List.mem_cons.mp hc with h1 | h2
      · exact absurd (h1 ▸ hceq) ha
      · exact ⟨c, h2, hceq⟩

/-- Claim C10: `updateStatusComment` updates the marker-bearing comment in
place when one exists (the comment list does not grow), creates the status
comment only when no marker-bearing comment exists, and — assuming the
server-side invariants that comment ids are distinct and at most one
marker-bearing comment exists — leaves exactly one marker-bearing comment
after every invocation. -/
theorem c10_update_status_comment (comments : List Comment) (status : VerdictA)
    (ts : String) (newId : Nat)
    (hids : (comments.map Comment.id).Nodup)
    (hinv : markerCount comments ≤ 1) :
    ((∃ c ∈ comments, jsIncludes c.body STATUS_COMMENT_MARKER = true) →
      (updateStatusComment comments status ts newId).1.length = comments.length) ∧
    ((∀ c ∈ comments, jsIncludes c.body STATUS_COMMENT_MARKER = false) →
      (updateStatusComment comments status ts newId).1 =
        comments ++ [⟨newId, buildStatusMessage status ts⟩]) ∧
    markerCount (updateStatusComment comments status ts newId).1 = 1 := by
  cases hfind : comments.find? (fun c => jsIncludes c.body STATUS_COMMENT_MARKER) with
  | none =>
    have hall : ∀ c ∈ comments, ¬ jsIncludes c.body STATUS_COMMENT_MARKER = true :=
      List.find?_eq_none.mp hfind
    refine ⟨?_, ?_, ?_⟩
    · rintro ⟨c, hc, hmk⟩
      exact absurd hmk (hall c hc)
    · intro _
      simp [updateStatusComment, hfind]
    · have h0 : markerCount comments = 0 := List.countP_eq_zero.mpr hall
      simp only [updateStatusComment, hfind, markerCount, List.countP_append] at *
      rw [h0]
      simp [List.countP_cons, marker_in_statusMessage]
  | some ex =>
    have hpex0 := List.find?_some hfind
    have hpex : jsIncludes ex.body STATUS_COMMENT_MARKER = true := by simpa using hpex0
    have hmem : ex ∈ comments := List.mem_of_find?_eq_some hfind
    refine ⟨?_, ?_, ?_⟩
    · intro _
      simp [updateStatusComment, hfind]
    · intro hall
      exact absurd hpex (by simp [hall ex hmem])
    · simp only [updateStatusComment, hfind, markerCount, List.countP_map]
      have hpt : ∀ c ∈ comments,
          ((fun c => jsIncludes c.body STATUS_COMMENT_MARKER) ∘ fun c =>
            if c.id == ex.id then
              { id := c.id, body := buildStatusMessage status ts } else c) c = true ↔
          (c.id == ex.id) = true := by
        intro c hc
        by_cases hid : c.id = ex.id
        · simp [hid, marker_in_statusMessage]
        · have hideq : (c.id == ex.id) = false := by simp [hid]
          simp only [Function.comp, hideq, Bool.false_eq_true, iff_false, if_false]
          intro hpc
          have hne : c ≠ ex := fun he => hid (by rw [he])
          have h2 : 2 ≤ markerCount comments :=
            two_le_countP _ comments c ex hc hmem hne hpc hpex
          omega
      rw [List.countP_congr hpt]
      exact countP_id_eq_one comments ex.id hids ⟨ex, hmem, rfl⟩

/-- Witness for C10 at a concrete input: a PR with one ordinary comment and
no status comment gets exactly one freshly created marker comment. -/
theorem c10_witness :
    (updateStatusComment [⟨5, "hello"⟩] (getCurrentStatus [] []) "2024-01-01T00:00:00Z" 9).1 =
      [⟨5, "hello"⟩] ++
        [⟨9, buildStatusMessage (getCurrentStatus [] []) "2024-01-01T00:00:00Z"⟩] ∧
    markerCount
      (updateStatusComment [⟨5, "hello"⟩] (getCurrentStatus [] [])
        "2024-01-01T00:00:00Z" 9).1 = 1 := by
  have h := c10_update_status_comment [⟨5, "hello"⟩] (getCurrentStatus [] [])
    "2024-01-01T00:00:00Z" 9 (by decide) (by decide)
  exact ⟨h.2.1 (by decide), h.2.2⟩

/-- Witness for C5 at a concrete input: a check named `build` survives the
pattern list `["deploy"]`. -/
theorem c5_witness :
    isRelevant ["deploy"] (RawCheck.checkRun (some "build") "completed" (some "success")) = true ∧
    (∀ e ∈ ["deploy"], jsIncludes (jsLower "build") (jsLower e) = false) := by
  have h := c5_exclusion_filter.1 ["deploy"]
    (RawCheck.checkRun (some "build") "completed" (some "success")) "build" (by decide)
  exact ⟨h.mpr (by decide), by decide⟩

end PRStatusNotifier
